import Mathlib

/-!
Verification of the bill-data synthesis core of the `bill-generator` repository
(`src/lib/billGenerator.ts`), against its natural-language specification.

The TypeScript source is shallowly embedded:

* JavaScript `Date` objects (used by the source only at day granularity, always
  constructed at local midnight) are modelled as the integer number of days since
  the Unix epoch, with the proleptic Gregorian calendar conversions
  `daysFromCivil` / `civilFromDays` modelling `new Date(y, m, d)` normalization
  and the `getFullYear`/`getMonth`/`getDate`/`getDay` accessors.  (The legacy
  two-digit-year remapping of the `Date(year, ...)` constructor, which affects
  only years 0..99, and wall-clock DST effects, which do not move local midnight
  to another calendar day, are outside the model.)
* `Math.random()` is modelled by an arbitrary stream `g : Nat -> Nat` of draws;
  the JavaScript expression `Math.floor(Math.random() * (maxAdd + 1))`, an
  arbitrary integer in `[0, maxAdd]`, becomes `g k % (maxAdd + 1)` where `k`
  counts the calls made so far.  Every sequence of in-range draws is realized by
  some `g`, and every `g` yields in-range draws.
* The `while (remaining > 0)` loop of `generateUnitsDistribution` need not
  terminate for every draw stream, so the loop takes explicit fuel and the
  functions involved return `none` when the fuel runs out ("still looping").
* Thrown `Error`s become `Except.error` with the thrown message.
* Date strings `"DD-MM-YYYY"` are modelled by their `(year, month, day)` integer
  components (structure `YMD`); `formatDate` produces the components and
  `parseDate` consumes them.
-/

namespace BillGen

structure YMD where
  year : Int
  month : Int
  day : Int
deriving DecidableEq, Repr, Inhabited

def isLeap (y : Int) : Bool :=
  (y % 4 == 0 && y % 100 != 0) || y % 400 == 0

def daysInMonth (y m : Int) : Int :=
  if m = 2 then (if isLeap y then 29 else 28)
  else if m = 4 ∨ m = 6 ∨ m = 9 ∨ m = 11 then 30
  else 31

def daysFromCivil (y m d : Int) : Int :=
  let ys := if m ≤ 2 then y - 1 else y
  let mp := if m ≤ 2 then m + 9 else m - 3
  365 * ys + ys/4 - ys/100 + ys/400 + (153 * mp + 2)/5 + d - 1 - 719468

def cfdYoe (doe : Int) : Int := (doe - doe/1460 + doe/36524 - doe/146096)/365

def civilFromDays (z : Int) : YMD :=
  let zz := z + 719468
  let era := zz / 146097
  let doe := zz - era * 146097
  let yoe := cfdYoe doe
  let ys := yoe + era * 400
  let doy := doe - (365 * yoe + yoe/4 - yoe/100)
  let mp := (5 * doy + 2)/153
  let d := doy - (153 * mp + 2)/5 + 1
  let m := if mp < 10 then mp + 3 else mp - 9
  ⟨if m ≤ 2 then ys + 1 else ys, m, d⟩

structure DState where
  units : List Int
  remaining : Int
  k : Nat
deriving Repr

/-- `Math.floor(Math.random() * (maxAdd + 1))`: the k-th draw of the source `g`,
reduced into `[0, maxAdd]`. -/
def draw (g : Nat → Nat) (k : Nat) (maxAdd : Int) : Int :=
  (g k % (maxAdd.toNat + 1) : Nat)

def sweepGo (mx : Int) (g : Nat → Nat) : List Int → Int → Nat → DState
  | [], r, k => ⟨[], r, k⟩
  | u :: us, r, k =>
    if 0 < r then
      let maxAdd := min r (mx - u)
      if 0 < maxAdd then
        let add := draw g k maxAdd
        let s := sweepGo mx g us (r - add) (k + 1)
        ⟨(u + add) :: s.units, s.remaining, s.k⟩
      else
        let s := sweepGo mx g us r k
        ⟨u :: s.units, s.remaining, s.k⟩
    else ⟨u :: us, r, k⟩

def distLoop (mx : Int) (g : Nat → Nat) : Nat → List Int → Int → Nat → Option DState
  | 0, us, r, k => if 0 < r then none else some ⟨us, r, k⟩
  | fuel+1, us, r, k =>
    if 0 < r then
      let s := sweepGo mx g us r k
      distLoop mx g fuel s.units s.remaining s.k
    else some ⟨us, r, k⟩

def swapIdx (l : List Int) (i j : Nat) : List Int :=
  match l[i]?, l[j]? with
  | some a, some b => (l.set i b).set j a
  | _, _ => l

def shuffleGo (g : Nat → Nat) : Nat → List Int → Nat → List Int × Nat
  | 0, l, k => (l, k)
  | i+1, l, k => shuffleGo g i (swapIdx l (i+1) (g k % (i+2))) (k+1)

def fisherYates (g : Nat → Nat) (l : List Int) (k : Nat) : List Int × Nat :=
  shuffleGo g (l.length - 1) l k

def generateUnitsDistribution (g : Nat → Nat) (fuel : Nat)
    (totalUnits numBills minUnits maxUnits : Int) : Option (Except String (List Int)) :=
  if minUnits ≤ 0 then some (.error "Minimum units per bill must be greater than 0")
  else if maxUnits ≤ 0 then some (.error "Maximum units per bill must be greater than 0")
  else if minUnits > maxUnits then some (.error
    ("Minimum units (" ++ toString minUnits ++ ") cannot be greater than maximum units (" ++
      toString maxUnits ++ ")"))
  else if totalUnits ≤ 0 then some (.error "Total units to sell must be greater than 0")
  else if numBills ≤ 0 then some (.error "Number of bills must be greater than 0")
  else
    let minPossibleTotal := numBills * minUnits
    let maxPossibleTotal := numBills * maxUnits
    if totalUnits < minPossibleTotal then some (.error
      ("Cannot distribute " ++ toString totalUnits ++ " units across " ++ toString numBills ++
        " bills with minimum " ++ toString minUnits ++ " units each. Minimum possible total: " ++
        toString minPossibleTotal ++ " units. Either reduce the minimum units per bill or " ++
        "increase the total units to sell."))
    else if totalUnits > maxPossibleTotal then some (.error
      ("Cannot distribute " ++ toString totalUnits ++ " units across " ++ toString numBills ++
        " bills with maximum " ++ toString maxUnits ++ " units each. Maximum possible total: " ++
        toString maxPossibleTotal ++ " units. Either increase the maximum units per bill or " ++
        "reduce the total units to sell."))
    else
      let units := List.replicate numBills.toNat minUnits
      let remaining := totalUnits - minPossibleTotal
      match distLoop maxUnits g fuel units remaining 0 with
      | none => none
      | some s => some (.ok (fisherYates g s.units s.k).1)

def zeroStream : Nat → Nat := fun _ => 0

def oneStream : Nat → Nat := fun _ => 1

/-- The sweep loop (and hence the distributor) runs forever on the stream `g`:
no amount of fuel makes it finish. -/
def distLoopDiverges (mx : Int) (g : Nat → Nat) (us : List Int) (r : Int) (k : Nat) : Prop :=
  ∀ fuel, distLoop mx g fuel us r k = none

/-- The distributor never returns on the stream `g`: for every fuel the run is cut off
while the while-loop is still spinning. -/
def distDiverges (g : Nat → Nat) (t c mn mx : Int) : Prop :=
  ∀ fuel, generateUnitsDistribution g fuel t c mn mx = none

/-- `new Date(y, m0, d)` as an epoch day: the month index is normalized with
floor semantics into a calendar month, then the (possibly out-of-range) day
offsets from the first of that month. -/
def newDateDays (y m0 d : Int) : Int :=
  daysFromCivil (y + m0 / 12) (m0 % 12 + 1) 1 + d - 1

/-- `Date.prototype.getDay`: 1970-01-01 (epoch day 0) was a Thursday (= 4). -/
def dayOfWeek (z : Int) : Int := (z + 4) % 7

/-- `BillGenerator.parseDate`: build `new Date(year, month - 1, day)` and accept
it only if reading the components back reproduces the input triple. -/
def parseDate (t : YMD) : Option Int :=
  let date := newDateDays t.year (t.month - 1) t.day
  if civilFromDays date = t then some date else none

/-- `BillGenerator.formatDate`: the `DD-MM-YYYY` string of an epoch day,
modelled by its components. -/
def formatDate (z : Int) : YMD := civilFromDays z

-- ## Date-range expansion (`generateDateRange`)

/-- The integers from `a` to `b` inclusive, in order (empty when `b < a`). -/
def intRange (a b : Int) : List Int :=
  (List.range (b - a + 1).toNat).map (fun i => a + (i : Int))

/-- Body of the day loops of `generateDateRange`: keep a day unless its weekday
is excluded, formatting it on the way out. -/
def keepDate (excl : List Int) (e : Int) : Option YMD :=
  if excl.contains (dayOfWeek e) then none else some (formatDate e)

/-- The dedicated single-month branch of the month-range mode: compute the last
day of the month from `nextMonth` minus 24 hours and loop `day = 1 .. lastDay`. -/
def singleMonthDates (startMonth startYear : Int) (excl : List Int) : List YMD :=
  let nextMonth := if startMonth = 12 then newDateDays (startYear + 1) 0 1
    else newDateDays startYear startMonth 1
  let lastDay := (civilFromDays (nextMonth - 1)).day
  (intRange 1 lastDay).filterMap
    (fun day => keepDate excl (newDateDays startYear (startMonth - 1) day))

/-- The multi-month branch of the month-range mode: iterate day by day from the
first of the start month to the last day of the end month
(`new Date(endYear, endMonth, 0)`). -/
def multiMonthDates (startMonth startYear endMonth endYear : Int) (excl : List Int) : List YMD :=
  let startDate := newDateDays startYear (startMonth - 1) 1
  let finalDate := newDateDays endYear endMonth 0
  (intRange startDate finalDate).filterMap (keepDate excl)

/-- The JavaScript sort comparator `parseDate(a).getTime() - parseDate(b).getTime()`
is negative, i.e. `a` sorts strictly before `b` (unparseable dates compare equal,
as the comparator then returns 0). -/
def dateTimeLt (a b : YMD) : Bool :=
  match parseDate a, parseDate b with
  | some x, some y => decide (x < y)
  | _, _ => false

def insertByTime (x : YMD) : List YMD → List YMD
  | [] => [x]
  | y :: ys => if dateTimeLt y x then y :: insertByTime x ys else x :: y :: ys

/-- Stable sort by parsed time, modelling `Array.prototype.sort` (stable per the
ECMAScript specification) with the comparator above. -/
def sortByTime (l : List YMD) : List YMD := l.foldr insertByTime []

inductive DateMode
  | monthRange
  | exactRange
  | specificDates
deriving DecidableEq, Repr

/-- The optional `config` argument of `generateDateRange`; an absent or empty
`specificDates` array (both falsy through `config?.specificDates?.length`) is
the empty list, and absent or empty exact-date strings are `none`. -/
structure DRConfig where
  dateMode : DateMode
  exactStartDate : Option YMD
  exactEndDate : Option YMD
  specificDates : List YMD
deriving DecidableEq, Repr

/-- The exact-range branch of `generateDateRange`. -/
def exactRangeDates (startStr endStr : YMD) (excl : List Int) : Except String (List YMD) :=
  match parseDate startStr, parseDate endStr with
  | none, _ => .error "Invalid start or end date format. Please use DD-MM-YYYY format."
  | some _, none => .error "Invalid start or end date format. Please use DD-MM-YYYY format."
  | some s, some e =>
    if s > e then .error "Start date cannot be after end date"
    else
      let validDates := (intRange s e).filterMap (keepDate excl)
      if validDates = [] then
        .error "No valid dates found in the specified date range after excluding weekdays"
      else .ok validDates

/-- The filter of the specific-dates branch: keep a date string iff it parses
and its weekday is not excluded (a parse failure is caught and drops the date). -/
def specificDateKept (excludeWeekdays : List Int) (date : YMD) : Bool :=
  match parseDate date with
  | none => false
  | some parsed => !excludeWeekdays.contains (dayOfWeek parsed)

/-- `BillGenerator.generateDateRange`. -/
def generateDateRange (startMonth startYear endMonth endYear : Int)
    (excludeWeekdays : List Int) (config : DRConfig) : Except String (List YMD) :=
  if config.dateMode = DateMode.specificDates ∧ config.specificDates ≠ [] then
    let validDates := config.specificDates.filter (specificDateKept excludeWeekdays)
    if validDates = [] then
      .error "No valid dates found in the specified dates after excluding weekdays"
    else
      .ok (sortByTime validDates)
  else if h : config.dateMode = DateMode.exactRange ∧ config.exactStartDate.isSome
      ∧ config.exactEndDate.isSome then
    exactRangeDates (config.exactStartDate.get h.2.1) (config.exactEndDate.get h.2.2)
      excludeWeekdays
  else
    let startDate := newDateDays startYear (startMonth - 1) 1
    let endDate := newDateDays endYear (endMonth - 1) 1
    if startDate > endDate then .error "Start date cannot be after end date"
    else
      let validDates :=
        if startMonth = endMonth ∧ startYear = endYear then
          singleMonthDates startMonth startYear excludeWeekdays
        else multiMonthDates startMonth startYear endMonth endYear excludeWeekdays
      if validDates = [] then
        .error "No valid dates found with the given constraints. Try adjusting the date range or excluded weekdays."
      else .ok validDates

-- ## Invoice-per-day distribution (`distributeInvoicesAcrossDates`)

/-- `Math.ceil(numBills / availableDates.length)`. -/
def invoicesPerDate (numBills : Int) (len : Nat) : Int :=
  -(-numBills / (len : Int))

/-- `BillGenerator.distributeInvoicesAcrossDates`. -/
def distributeInvoicesAcrossDates (numBills : Int) (availableDates : List YMD) :
    Except String (List YMD) :=
  if availableDates.length = 0 then
    .error "No available dates for invoice distribution"
  else
    let perDate := (invoicesPerDate numBills availableDates.length).toNat
    let distributedDates := (List.range numBills.toNat).map (fun i =>
      availableDates.getD ((i / perDate) % availableDates.length) default)
    .ok (distributedDates ++
      (List.range' distributedDates.length (numBills.toNat - distributedDates.length)).map
        (fun i => availableDates.getD (i % availableDates.length) default))

-- ## Bill synthesis (`createBillData`)

structure BillConfig where
  invoiceStart : Int
  invoiceEnd : Int
  totalUnitsToSell : Int
  minUnitsPerBill : Int
  maxUnitsPerBill : Int
  startMonth : Int
  startYear : Int
  endMonth : Int
  endYear : Int
  excludeWeekdays : List Int
  unitPrice : Int
  dateMode : DateMode
  exactStartDate : Option YMD
  exactEndDate : Option YMD
  specificDates : List YMD
  allowMultipleInvoicesPerDay : Bool
deriving Repr

structure BillData where
  billNo : Int
  date : YMD
  units : Int
  amount : Int
deriving DecidableEq, Repr

def calculateNumBills (start finish : Int) : Int := finish - start + 1

/-- `BillGenerator.createBillData`.  Returns `none` when the (fuelled) random
allocation loop of the unit distributor has not finished. -/
def createBillData (g : Nat → Nat) (fuel : Nat) (config : BillConfig) :
    Option (Except String (List BillData)) :=
  let numBills := calculateNumBills config.invoiceStart config.invoiceEnd
  if config.invoiceStart ≤ 0 ∨ config.invoiceEnd ≤ 0 then
    some (.error "Invoice numbers must be greater than 0")
  else if config.invoiceStart > config.invoiceEnd then
    some (.error ("Invoice start (" ++ toString config.invoiceStart ++
      ") cannot be greater than invoice end (" ++ toString config.invoiceEnd ++ ")"))
  else
    match generateDateRange config.startMonth config.startYear config.endMonth config.endYear
        config.excludeWeekdays
        ⟨config.dateMode, config.exactStartDate, config.exactEndDate, config.specificDates⟩ with
    | .error e => some (.error e)
    | .ok validDates =>
      if validDates.length = 0 then
        some (.error "No valid dates found with the given constraints")
      else if ¬ config.allowMultipleInvoicesPerDay ∧ (validDates.length : Int) < numBills then
        some (.error ("Not enough valid dates (" ++ toString validDates.length ++
          ") for the number of bills (" ++ toString numBills ++ ")."))
      else
        match generateUnitsDistribution g fuel config.totalUnitsToSell numBills
            config.minUnitsPerBill config.maxUnitsPerBill with
        | none => none
        | some (.error e) => some (.error e)
        | some (.ok unitsList) =>
          if config.allowMultipleInvoicesPerDay then
            match distributeInvoicesAcrossDates numBills validDates with
            | .error e => some (.error e)
            | .ok distributedDates =>
              some (.ok ((List.range numBills.toNat).map (fun (i : Nat) =>
                { billNo := config.invoiceStart + (i : Int)
                  date := distributedDates.getD i default
                  units := unitsList.getD i 0
                  amount := unitsList.getD i 0 * config.unitPrice })))
          else
            some (.ok ((List.range numBills.toNat).map (fun (i : Nat) =>
              { billNo := config.invoiceStart + (i : Int)
                date := validDates.getD i default
                units := unitsList.getD i 0
                amount := unitsList.getD i 0 * config.unitPrice })))

-- ## Amount in words (`numberToWords`, `generateAmountInWords`)

def onesWords : List String :=
  ["", "one", "two", "three", "four", "five", "six", "seven", "eight", "nine"]

def teensWords : List String :=
  ["ten", "eleven", "twelve", "thirteen", "fourteen", "fifteen", "sixteen",
    "seventeen", "eighteen", "nineteen"]

def tensWords : List String :=
  ["", "", "twenty", "thirty", "forty", "fifty", "sixty", "seventy", "eighty", "ninety"]

def thousandsWords : List String := ["", "thousand", "million", "billion"]

/-- `String.prototype.trim`. -/
def trimStr (s : String) : String :=
  String.mk (((s.data.dropWhile Char.isWhitespace).reverse.dropWhile Char.isWhitespace).reverse)

def convertHundreds (n : Nat) : String :=
  let r1 := if n ≥ 100 then onesWords.getD (n / 100) "" ++ " hundred " else ""
  let n1 := if n ≥ 100 then n % 100 else n
  let r2 :=
    if n1 ≥ 20 then
      tensWords.getD (n1 / 10) ""
        ++ (if n1 % 10 ≠ 0 then "-" ++ onesWords.getD (n1 % 10) "" else "")
    else if n1 ≥ 10 then teensWords.getD (n1 - 10) ""
    else if n1 > 0 then onesWords.getD n1 ""
    else ""
  trimStr (r1 ++ r2)

/-- The `while (num > 0)` loop of `numberToWords` (an out-of-range thousands
index is `undefined`, which is falsy, hence the empty default). -/
def wordsLoop (num counter : Nat) (result : String) : String :=
  if h : num = 0 then result
  else
    let result' :=
      if num % 1000 ≠ 0 then
        convertHundreds (num % 1000)
          ++ (if thousandsWords.getD counter "" ≠ "" then
                " " ++ thousandsWords.getD counter "" else "")
          ++ " " ++ result
      else result
    wordsLoop (num / 1000) (counter + 1) result'
termination_by num
decreasing_by exact Nat.div_lt_self (Nat.pos_of_ne_zero h) (by norm_num)

def numberToWords (num : Nat) : String :=
  if num = 0 then "zero"
  else if num < 1000 then convertHundreds num
  else trimStr (wordsLoop num 0 "")

def capitalizeFirst (s : String) : String :=
  match s.data with
  | [] => ""
  | c :: cs => String.mk (c.toUpper :: cs)

def generateAmountInWords (amount : Nat) : String :=
  "( Rs. " ++ capitalizeFirst (numberToWords amount) ++ " only )"

-- ## Concrete instances used by witnesses and counterexamples

/-- A small month-range configuration: two invoices in May 2025. -/
def cfgMayTwo : BillConfig :=
  { invoiceStart := 1, invoiceEnd := 2, totalUnitsToSell := 4, minUnitsPerBill := 1,
    maxUnitsPerBill := 5, startMonth := 5, startYear := 2025, endMonth := 5, endYear := 2025,
    excludeWeekdays := [], unitPrice := 3, dateMode := DateMode.monthRange,
    exactStartDate := none, exactEndDate := none, specificDates := [],
    allowMultipleInvoicesPerDay := false }

/-- Specific-dates mode with an empty explicit date list (month range May 2025). -/
def cfgEmptySpecific : BillConfig :=
  { invoiceStart := 1, invoiceEnd := 1, totalUnitsToSell := 2, minUnitsPerBill := 1,
    maxUnitsPerBill := 5, startMonth := 5, startYear := 2025, endMonth := 5, endYear := 2025,
    excludeWeekdays := [], unitPrice := 3, dateMode := DateMode.specificDates,
    exactStartDate := none, exactEndDate := none, specificDates := [],
    allowMultipleInvoicesPerDay := false }

/-- Specific-dates mode whose only date, 31-02-2025, fails to parse. -/
def cfgUnparseableSpecific : BillConfig :=
  { invoiceStart := 1, invoiceEnd := 1, totalUnitsToSell := 2, minUnitsPerBill := 1,
    maxUnitsPerBill := 5, startMonth := 5, startYear := 2025, endMonth := 5, endYear := 2025,
    excludeWeekdays := [], unitPrice := 3, dateMode := DateMode.specificDates,
    exactStartDate := none, exactEndDate := none, specificDates := [⟨2025, 2, 31⟩],
    allowMultipleInvoicesPerDay := false }

def threeDates : List YMD := [⟨2025, 5, 1⟩, ⟨2025, 5, 2⟩, ⟨2025, 5, 3⟩]

set_option maxHeartbeats 1000000 in
theorem cfdYoe_eq (yoe doyF : Int) (h1 : 0 ≤ yoe) (h2 : yoe ≤ 399)
    (h3 : 0 ≤ doyF) (h4 : doyF ≤ 365)
    (h5 : doyF ≤ 364 ∨ (yoe % 4 = 3 ∧ ¬ yoe % 100 = 99 ∨ yoe = 399)) :
    cfdYoe (365*yoe + yoe/4 - yoe/100 + doyF) = yoe := by
  unfold cfdYoe
  have hq4 : 0 ≤ yoe/4 ∧ yoe/4 ≤ 99 ∧ yoe/100 ≤ yoe/4 := by omega
  have hf : (365*yoe + yoe/4 - yoe/100 + doyF) / 1460 - yoe/4 = 0 ∨
      (365*yoe + yoe/4 - yoe/100 + doyF) / 1460 - yoe/4 = 1 := by omega
  have hg : (365*yoe + yoe/4 - yoe/100 + doyF) / 36524 - yoe/100 = 0 ∨
      (365*yoe + yoe/4 - yoe/100 + doyF) / 36524 - yoe/100 = 1 := by omega
  have hi : (365*yoe + yoe/4 - yoe/100 + doyF) / 146096 = 0 ∨
      ((365*yoe + yoe/4 - yoe/100 + doyF) / 146096 = 1 ∧
        365*yoe + yoe/4 - yoe/100 + doyF = 146096) := by omega
  have hg1 : (365*yoe + yoe/4 - yoe/100 + doyF) / 36524 - yoe/100 = 1 →
      doyF = 365 ∧ yoe % 100 = 99 ∧ yoe % 4 = 3 := by omega
  have hf1 : (365*yoe + yoe/4 - yoe/100 + doyF) / 1460 - yoe/4 = 1 → 266 ≤ doyF := by omega
  omega

set_option maxHeartbeats 1000000 in
theorem civilFromDays_shifted (z ys mp d : Int)
    (hz : z + 719468 = 365*ys + ys/4 - ys/100 + ys/400 + (153*mp+2)/5 + d - 1 + 719468 - 719468)
    (h0 : 0 ≤ mp) (h1 : mp ≤ 11) (hd : 1 ≤ d)
    (hdmax : d ≤ (153*(mp+1)+2)/5 - (153*mp+2)/5)
    (hbound : (153*mp+2)/5 + d - 1 ≤ 364 ∨
      ((153*mp+2)/5 + d - 1 = 365 ∧
        (ys % 4 = 3 ∧ ¬ ys % 100 = 99 ∨ ys % 400 = 399))) :
    civilFromDays z = ⟨if mp < 10 then ys else ys + 1, if mp < 10 then mp + 3 else mp - 9, d⟩ := by
  simp only [civilFromDays]
  have hdoy : 0 ≤ (153*mp+2)/5 + d - 1 ∧ (153*mp+2)/5 + d - 1 ≤ 365 := by omega
  have e1 : z + 719468
      = 365*(ys % 400) + (ys % 400)/4 - (ys % 400)/100 + ((153*mp+2)/5 + d - 1)
        + 146097 * (ys/400) := by omega
  rw [e1]
  have e2 : (365*(ys % 400) + (ys % 400)/4 - (ys % 400)/100 + ((153*mp+2)/5 + d - 1)
        + 146097 * (ys/400)) / 146097 = ys/400 := by omega
  rw [e2]
  have e3 : 365*(ys % 400) + (ys % 400)/4 - (ys % 400)/100 + ((153*mp+2)/5 + d - 1)
        + 146097 * (ys/400) - ys/400 * 146097
      = 365*(ys % 400) + (ys % 400)/4 - (ys % 400)/100 + ((153*mp+2)/5 + d - 1) := by omega
  rw [e3]
  rw [cfdYoe_eq (ys % 400) ((153*mp+2)/5 + d - 1) (by omega) (by omega) (by omega) (by omega)
      (by omega)]
  have e4 : 365*(ys % 400) + (ys % 400)/4 - (ys % 400)/100 + ((153*mp+2)/5 + d - 1)
        - (365 * (ys % 400) + (ys % 400)/4 - (ys % 400)/100)
      = (153*mp+2)/5 + d - 1 := by omega
  rw [e4]
  have e5 : (5 * ((153*mp+2)/5 + d - 1) + 2) / 153 = mp := by omega
  rw [e5]
  have e6 : (153*mp+2)/5 + d - 1 - (153 * mp + 2)/5 + 1 = d := by omega
  rw [e6]
  have e7 : ys % 400 + ys/400 * 400 = ys := by omega
  rw [e7]
  split_ifs <;> first | rfl | (exfalso; omega)

set_option maxHeartbeats 1000000 in
theorem civil_roundtrip (y m d : Int) (h1 : 1 ≤ m) (h2 : m ≤ 12)
    (h3 : 1 ≤ d) (h4 : d ≤ daysInMonth y m) :
    civilFromDays (daysFromCivil y m d) = ⟨y, m, d⟩ := by
  have hleap : (isLeap y = true) ↔ (y % 4 = 0 ∧ ¬ y % 100 = 0 ∨ y % 400 = 0) := by
    simp [isLeap]
  simp only [daysInMonth] at h4
  interval_cases m
  · norm_num at h4
    exact (civilFromDays_shifted (daysFromCivil y 1 d) (y-1) 10 d
      (by simp only [daysFromCivil]; norm_num) (by omega) (by omega) h3 (by omega)
      (by omega)).trans (by norm_num)
  · norm_num at h4
    split_ifs at h4 with hl <;> rw [hleap] at hl <;>
      exact (civilFromDays_shifted (daysFromCivil y 2 d) (y-1) 11 d
        (by simp only [daysFromCivil]; norm_num) (by omega) (by omega) h3 (by omega)
        (by omega)).trans (by norm_num)
  · norm_num at h4
    exact (civilFromDays_shifted (daysFromCivil y 3 d) y 0 d
      (by simp only [daysFromCivil]; norm_num) (by omega) (by omega) h3 (by omega)
      (by omega)).trans (by norm_num)
  · norm_num at h4
    exact (civilFromDays_shifted (daysFromCivil y 4 d) y 1 d
      (by simp only [daysFromCivil]; norm_num) (by omega) (by omega) h3 (by omega)
      (by omega)).trans (by norm_num)
  · norm_num at h4
    exact (civilFromDays_shifted (daysFromCivil y 5 d) y 2 d
      (by simp only [daysFromCivil]; norm_num) (by omega) (by omega) h3 (by omega)
      (by omega)).trans (by norm_num)
  · norm_num at h4
    exact (civilFromDays_shifted (daysFromCivil y 6 d) y 3 d
      (by simp only [daysFromCivil]; norm_num) (by omega) (by omega) h3 (by omega)
      (by omega)).trans (by norm_num)
  · norm_num at h4
    exact (civilFromDays_shifted (daysFromCivil y 7 d) y 4 d
      (by simp only [daysFromCivil]; norm_num) (by omega) (by omega) h3 (by omega)
      (by omega)).trans (by norm_num)
  · norm_num at h4
    exact (civilFromDays_shifted (daysFromCivil y 8 d) y 5 d
      (by simp only [daysFromCivil]; norm_num) (by omega) (by omega) h3 (by omega)
      (by omega)).trans (by norm_num)
  · norm_num at h4
    exact (civilFromDays_shifted (daysFromCivil y 9 d) y 6 d
      (by simp only [daysFromCivil]; norm_num) (by omega) (by omega) h3 (by omega)
      (by omega)).trans (by norm_num)
  · norm_num at h4
    exact (civilFromDays_shifted (daysFromCivil y 10 d) y 7 d
      (by simp only [daysFromCivil]; norm_num) (by omega) (by omega) h3 (by omega)
      (by omega)).trans (by norm_num)
  · norm_num at h4
    exact (civilFromDays_shifted (daysFromCivil y 11 d) y 8 d
      (by simp only [daysFromCivil]; norm_num) (by omega) (by omega) h3 (by omega)
      (by omega)).trans (by norm_num)
  · norm_num at h4
    exact (civilFromDays_shifted (daysFromCivil y 12 d) y 9 d
      (by simp only [daysFromCivil]; norm_num) (by omega) (by omega) h3 (by omega)
      (by omega)).trans (by norm_num)

theorem draw_nonneg (g : Nat → Nat) (k : Nat) (m : Int) : 0 ≤ draw g k m := by
  unfold draw
  exact Int.natCast_nonneg _

theorem draw_le (g : Nat → Nat) (k : Nat) (m : Int) (hm : 0 ≤ m) : draw g k m ≤ m := by
  unfold draw
  have := Nat.mod_lt (g k) (show 0 < m.toNat + 1 by omega)
  omega

theorem draw_zeroStream (k : Nat) (m : Int) : draw (fun _ => 0) k m = 0 := by
  simp [draw]

theorem draw_oneStream (k : Nat) (m : Int) (hm : 1 ≤ m) : draw (fun _ => 1) k m = 1 := by
  simp only [draw]
  rw [Nat.mod_eq_of_lt (by omega)]
  norm_num

theorem sum_map_const_sub (mx : Int) (l : List Int) :
    (l.map (fun u => mx - u)).sum = l.length * mx - l.sum := by
  induction l with
  | nil => simp
  | cons a l ih =>
    simp only [List.map_cons, List.sum_cons, List.length_cons, ih]
    push_cast
    ring

theorem sweepGo_length (mx : Int) (g : Nat → Nat) (us : List Int) (r : Int) (k : Nat) :
    (sweepGo mx g us r k).units.length = us.length := by
  induction us generalizing r k with
  | nil => simp [sweepGo]
  | cons u us ih =>
    simp only [sweepGo]
    split
    · split
      · simpa using ih _ _
      · simpa using ih _ _
    · rfl

theorem sweepGo_sum (mx : Int) (g : Nat → Nat) (us : List Int) (r : Int) (k : Nat) :
    (sweepGo mx g us r k).units.sum + (sweepGo mx g us r k).remaining = us.sum + r := by
  induction us generalizing r k with
  | nil => simp [sweepGo]
  | cons u us ih =>
    simp only [sweepGo]
    split
    · split
      · simp only [List.sum_cons]
        have := ih (r - draw g k (min r (mx - u))) (k + 1)
        omega
      · have := ih r k
        simp only [List.sum_cons]
        omega
    · rfl

theorem sweepGo_remaining_bounds (mx : Int) (g : Nat → Nat) (us : List Int) (r : Int) (k : Nat)
    (hr : 0 ≤ r) : 0 ≤ (sweepGo mx g us r k).remaining ∧ (sweepGo mx g us r k).remaining ≤ r := by
  induction us generalizing r k with
  | nil => exact ⟨by simpa [sweepGo] using hr, by simp [sweepGo]⟩
  | cons u us ih =>
    simp only [sweepGo]
    split
    · split
      · rename_i h1 h2
        have hadd := draw_le g k (min r (mx - u)) (le_of_lt h2)
        have hadd0 := draw_nonneg g k (min r (mx - u))
        have := ih (r - draw g k (min r (mx - u))) (k + 1) (by omega)
        dsimp only
        omega
      · exact ih r k hr
    · exact ⟨hr, le_refl r⟩

theorem sweepGo_upper (mx : Int) (g : Nat → Nat) (us : List Int) (r : Int) (k : Nat)
    (hhi : ∀ u ∈ us, u ≤ mx) : ∀ u ∈ (sweepGo mx g us r k).units, u ≤ mx := by
  induction us generalizing r k with
  | nil => simp only [sweepGo]; exact hhi
  | cons u us ih =>
    have hhi' : ∀ v ∈ us, v ≤ mx := fun v hv => hhi v (List.mem_cons_of_mem u hv)
    have hu2 : u ≤ mx := hhi u (List.mem_cons_self u us)
    simp only [sweepGo]
    split
    · split
      · rename_i h1 h2
        have hadd := draw_le g k (min r (mx - u)) (le_of_lt h2)
        intro v hv
        simp only [List.mem_cons] at hv
        rcases hv with rfl | hv
        · omega
        · exact ih _ _ hhi' v hv
      · intro v hv
        simp only [List.mem_cons] at hv
        rcases hv with rfl | hv
        · exact hu2
        · exact ih _ _ hhi' v hv
    · exact hhi

theorem sweepGo_lower (mx mn : Int) (g : Nat → Nat) (us : List Int) (r : Int) (k : Nat)
    (hlo : ∀ u ∈ us, mn ≤ u) : ∀ u ∈ (sweepGo mx g us r k).units, mn ≤ u := by
  induction us generalizing r k with
  | nil => simp only [sweepGo]; exact hlo
  | cons u us ih =>
    have hlo' : ∀ v ∈ us, mn ≤ v := fun v hv => hlo v (List.mem_cons_of_mem u hv)
    have hu1 : mn ≤ u := hlo u (List.mem_cons_self u us)
    simp only [sweepGo]
    split
    · split
      · rename_i h1 h2
        have hadd0 := draw_nonneg g k (min r (mx - u))
        intro v hv
        simp only [List.mem_cons] at hv
        rcases hv with rfl | hv
        · omega
        · exact ih _ _ hlo' v hv
      · intro v hv
        simp only [List.mem_cons] at hv
        rcases hv with rfl | hv
        · exact hu1
        · exact ih _ _ hlo' v hv
    · exact hlo

theorem sweepGo_zero (mx : Int) (us : List Int) (r : Int) (k : Nat) :
    (sweepGo mx zeroStream us r k).units = us ∧ (sweepGo mx zeroStream us r k).remaining = r := by
  induction us generalizing r k with
  | nil => simp [sweepGo]
  | cons u us ih =>
    simp only [sweepGo]
    split
    · split
      · have h0 : draw zeroStream k (min r (mx - u)) = 0 := draw_zeroStream k _
        rw [h0]
        have := ih (r - 0) (k + 1)
        simp only [sub_zero] at this
        simp [this.1, this.2]
      · have := ih r k
        simp [this.1, this.2]
    · exact ⟨rfl, rfl⟩

theorem sweepGo_one_progress (mx : Int) (us : List Int) (r : Int) (k : Nat)
    (hr : 0 < r) (hcap : r ≤ (us.map (fun u => mx - u)).sum) (hhi : ∀ u ∈ us, u ≤ mx) :
    (sweepGo mx oneStream us r k).remaining ≤ r - 1 := by
  induction us generalizing r k with
  | nil => simp at hcap; omega
  | cons u us ih =>
    have hu2 : u ≤ mx := hhi u (List.mem_cons_self u us)
    have hhi' : ∀ v ∈ us, v ≤ mx := fun v hv => hhi v (List.mem_cons_of_mem u hv)
    simp only [sweepGo, if_pos hr]
    split
    · rename_i hma
      have h1 : draw oneStream k (min r (mx - u)) = 1 := draw_oneStream k _ (by omega)
      rw [h1]
      have := sweepGo_remaining_bounds mx oneStream us (r - 1) (k + 1) (by omega)
      simp only []
      omega
    · rename_i hma
      have hcap' : r ≤ (us.map (fun u => mx - u)).sum := by
        simp only [List.map_cons, List.sum_cons] at hcap
        omega
      have := ih r k hr hcap' hhi'
      simpa using this

theorem distLoop_spec (mx mn : Int) (g : Nat → Nat) (fuel : Nat) (us : List Int) (r : Int)
    (k : Nat) (s : DState) (hr : 0 ≤ r) (hlo : ∀ u ∈ us, mn ≤ u) (hhi : ∀ u ∈ us, u ≤ mx)
    (h : distLoop mx g fuel us r k = some s) :
    s.units.length = us.length ∧ s.units.sum = us.sum + r ∧
      (∀ u ∈ s.units, mn ≤ u ∧ u ≤ mx) ∧ s.remaining = 0 := by
  induction fuel generalizing us r k with
  | zero =>
    simp only [distLoop] at h
    split at h
    · exact absurd h (by simp)
    · cases h
      refine ⟨rfl, by simp; omega, fun u hu => ⟨hlo u hu, hhi u hu⟩, by simp; omega⟩
  | succ fuel ih =>
    simp only [distLoop] at h
    split at h
    · have hup := sweepGo_upper mx g us r k hhi
      have hdn := sweepGo_lower mx mn g us r k hlo
      have hrb := sweepGo_remaining_bounds mx g us r k hr
      have hsum := sweepGo_sum mx g us r k
      have hlen := sweepGo_length mx g us r k
      have := ih _ _ _ hrb.1 hdn hup h
      exact ⟨by omega, by omega, this.2.2.1, this.2.2.2⟩
    · cases h
      refine ⟨rfl, by simp; omega, fun u hu => ⟨hlo u hu, hhi u hu⟩, by simp; omega⟩

theorem distLoop_zero_none (mx : Int) (fuel : Nat) (us : List Int) (r : Int) (k : Nat)
    (hr : 0 < r) : distLoop mx zeroStream fuel us r k = none := by
  induction fuel generalizing us r k with
  | zero => simp [distLoop, hr]
  | succ fuel ih =>
    simp only [distLoop, if_pos hr]
    have hz := sweepGo_zero mx us r k
    rw [hz.1, hz.2]
    exact ih us r _ hr

theorem distLoop_one_some (mx : Int) (fuel : Nat) (us : List Int) (r : Int) (k : Nat)
    (hr : 0 ≤ r) (hfuel : r.toNat ≤ fuel) (hhi : ∀ u ∈ us, u ≤ mx)
    (hcap : r ≤ (us.map (fun u => mx - u)).sum) :
    ∃ s, distLoop mx oneStream fuel us r k = some s := by
  induction fuel generalizing us r k with
  | zero =>
    have hr0 : r = 0 := by omega
    subst hr0
    exact ⟨⟨us, 0, k⟩, by simp [distLoop]⟩
  | succ fuel ih =>
    by_cases hr0 : 0 < r
    · simp only [distLoop, if_pos hr0]
      have hprog := sweepGo_one_progress mx us r k hr0 hcap hhi
      have hrb := sweepGo_remaining_bounds mx oneStream us r k hr
      have hup := sweepGo_upper mx oneStream us r k hhi
      have hsum := sweepGo_sum mx oneStream us r k
      have hlen := sweepGo_length mx oneStream us r k
      refine ih _ _ _ hrb.1 (by omega) hup ?_
      rw [sum_map_const_sub] at hcap ⊢
      rw [hlen]
      omega
    · exact ⟨⟨us, r, k⟩, by simp [distLoop, hr0]⟩

-- ### shuffle lemmas

theorem sum_set_lt (l : List Int) (n : Nat) (x : Int) (hn : n < l.length) :
    (l.set n x).sum = l.sum + x - l.getD n 0 := by
  induction l generalizing n with
  | nil => simp at hn
  | cons a l ih =>
    cases n with
    | zero => simp [List.set]; ring
    | succ n =>
      simp only [List.set, List.sum_cons, List.getD_cons_succ]
      rw [ih n (by simpa using hn)]
      ring

theorem getD_set_self (l : List Int) (n : Nat) (x : Int) (hn : n < l.length) :
    (l.set n x).getD n 0 = x := by
  induction l generalizing n with
  | nil => simp at hn
  | cons a l ih =>
    cases n with
    | zero => simp [List.set]
    | succ n => simpa [List.set] using ih n (by simpa using hn)

theorem getD_set_ne (l : List Int) (i j : Nat) (x : Int) (h : i ≠ j) :
    (l.set i x).getD j 0 = l.getD j 0 := by
  induction l generalizing i j with
  | nil => simp
  | cons a l ih =>
    cases i with
    | zero =>
      cases j with
      | zero => exact absurd rfl h
      | succ j => simp [List.set]
    | succ i =>
      cases j with
      | zero => simp [List.set]
      | succ j => simpa [List.set] using ih i j (by omega)

theorem getD_eq_of_getElem? (l : List Int) (n : Nat) (a : Int) (h : l[n]? = some a) :
    l.getD n 0 = a := by
  simp [List.getD, h]

theorem swapIdx_length (l : List Int) (i j : Nat) : (swapIdx l i j).length = l.length := by
  unfold swapIdx
  rcases h1 : l[i]? with _ | a <;> rcases h2 : l[j]? with _ | b <;> simp

theorem swapIdx_sum (l : List Int) (i j : Nat) : (swapIdx l i j).sum = l.sum := by
  unfold swapIdx
  rcases h1 : l[i]? with _ | a
  · rfl
  rcases h2 : l[j]? with _ | b
  · rfl
  have hi : i < l.length := (List.getElem?_eq_some.mp h1).1
  have hj : j < l.length := (List.getElem?_eq_some.mp h2).1
  have hda := getD_eq_of_getElem? l i a h1
  have hdb := getD_eq_of_getElem? l j b h2
  rw [sum_set_lt _ j a (by simpa using hj), sum_set_lt _ i b hi]
  by_cases hij : i = j
  · subst hij
    rw [getD_set_self l i b hi]
    have : a = b := by rw [h1] at h2; exact Option.some.inj h2
    omega
  · rw [getD_set_ne l i j b hij]
    omega

theorem swapIdx_mem (l : List Int) (i j : Nat) (p : Int → Prop) (hp : ∀ x ∈ l, p x) :
    ∀ x ∈ swapIdx l i j, p x := by
  unfold swapIdx
  rcases h1 : l[i]? with _ | a
  · exact hp
  rcases h2 : l[j]? with _ | b
  · exact hp
  intro x hx
  rcases List.mem_or_eq_of_mem_set hx with hx' | rfl
  · rcases List.mem_or_eq_of_mem_set hx' with hx'' | rfl
    · exact hp x hx''
    · exact hp _ (List.getElem?_mem h2)
  · exact hp _ (List.getElem?_mem h1)

theorem set_replicate_self (n i : Nat) (c : Int) :
    (List.replicate n c).set i c = List.replicate n c := by
  induction n generalizing i with
  | zero => simp
  | succ n ih =>
    cases i with
    | zero => simp [List.replicate, List.set]
    | succ i => simp [List.replicate, List.set, ih]

theorem swapIdx_replicate (n i j : Nat) (c : Int) :
    swapIdx (List.replicate n c) i j = List.replicate n c := by
  unfold swapIdx
  rcases h1 : (List.replicate n c)[i]? with _ | a
  · rfl
  rcases h2 : (List.replicate n c)[j]? with _ | b
  · rfl
  have ha : a = c := List.eq_of_mem_replicate (List.getElem?_mem h1)
  have hb : b = c := List.eq_of_mem_replicate (List.getElem?_mem h2)
  subst ha hb
  dsimp only
  rw [set_replicate_self, set_replicate_self]

theorem shuffleGo_length (g : Nat → Nat) (i : Nat) (l : List Int) (k : Nat) :
    (shuffleGo g i l k).1.length = l.length := by
  induction i generalizing l k with
  | zero => rfl
  | succ i ih => simp [shuffleGo, ih, swapIdx_length]

theorem shuffleGo_sum (g : Nat → Nat) (i : Nat) (l : List Int) (k : Nat) :
    (shuffleGo g i l k).1.sum = l.sum := by
  induction i generalizing l k with
  | zero => rfl
  | succ i ih => simp [shuffleGo, ih, swapIdx_sum]

theorem shuffleGo_mem (g : Nat → Nat) (i : Nat) (l : List Int) (k : Nat) (p : Int → Prop)
    (hp : ∀ x ∈ l, p x) : ∀ x ∈ (shuffleGo g i l k).1, p x := by
  induction i generalizing l k with
  | zero => exact hp
  | succ i ih => exact ih _ _ (swapIdx_mem _ _ _ p hp)

theorem shuffleGo_replicate (g : Nat → Nat) (i n : Nat) (c : Int) (k : Nat) :
    (shuffleGo g i (List.replicate n c) k).1 = List.replicate n c := by
  induction i generalizing k with
  | zero => rfl
  | succ i ih => simp [shuffleGo, swapIdx_replicate, ih]

theorem fisherYates_length (g : Nat → Nat) (l : List Int) (k : Nat) :
    (fisherYates g l k).1.length = l.length := shuffleGo_length g _ l k

theorem fisherYates_sum (g : Nat → Nat) (l : List Int) (k : Nat) :
    (fisherYates g l k).1.sum = l.sum := shuffleGo_sum g _ l k

theorem fisherYates_mem (g : Nat → Nat) (l : List Int) (k : Nat) (p : Int → Prop)
    (hp : ∀ x ∈ l, p x) : ∀ x ∈ (fisherYates g l k).1, p x := shuffleGo_mem g _ l k p hp

theorem fisherYates_replicate (g : Nat → Nat) (n : Nat) (c : Int) (k : Nat) :
    (fisherYates g (List.replicate n c) k).1 = List.replicate n c := by
  unfold fisherYates
  exact shuffleGo_replicate g _ n c k

-- ### top-level distributor theorems

theorem distLoop_done (mx : Int) (g : Nat → Nat) (fuel : Nat) (us : List Int) (k : Nat) :
    distLoop mx g fuel us 0 k = some ⟨us, 0, k⟩ := by
  cases fuel <;> simp [distLoop]

theorem all_eq_of_sum_eq (l : List Int) (m : Int) (hhi : ∀ x ∈ l, x ≤ m)
    (hs : l.sum = l.length * m) : l = List.replicate l.length m := by
  induction l with
  | nil => simp
  | cons a l ih =>
    have ha : a ≤ m := hhi a (List.mem_cons_self a l)
    have hhi' : ∀ x ∈ l, x ≤ m := fun x hx => hhi x (List.mem_cons_of_mem a hx)
    have hsum_le : l.sum ≤ l.length * m := by
      calc l.sum ≤ l.length • m := List.sum_le_card_nsmul l m hhi'
      _ = l.length * m := by rw [nsmul_eq_mul]
    simp only [List.sum_cons, List.length_cons] at hs
    have ham : a = m := by push_cast at hs ⊢; nlinarith
    subst ham
    have hs' : l.sum = l.length * a := by push_cast at hs ⊢; linarith
    simp only [List.replicate, List.length_cons]
    rw [← ih hhi' hs']

theorem generateUnitsDistribution_ok (g : Nat → Nat) (fuel : Nat) (t c mn mx : Int)
    (us : List Int) (h : generateUnitsDistribution g fuel t c mn mx = some (.ok us)) :
    (us.length : Int) = c ∧ us.sum = t ∧ ∀ u ∈ us, mn ≤ u ∧ u ≤ mx := by
  unfold generateUnitsDistribution at h
  dsimp only at h
  split_ifs at h with h1 h2 h3 h4 h5 h6 h7 <;> try (exfalso; simp at h)
  rcases hd : distLoop mx g fuel (List.replicate c.toNat mn) (t - c * mn) 0 with _ | s
  · rw [hd] at h; simp at h
  · rw [hd] at h
    simp only [Option.some.injEq, Except.ok.injEq] at h
    subst h
    have hlo : ∀ u ∈ List.replicate c.toNat mn, mn ≤ u := by
      intro u hu; rw [List.eq_of_mem_replicate hu]
    have hhi : ∀ u ∈ List.replicate c.toNat mn, u ≤ mx := by
      intro u hu; rw [List.eq_of_mem_replicate hu]; omega
    have hspec := distLoop_spec mx mn g fuel _ _ _ s (by omega) hlo hhi hd
    have hrep_len : (List.replicate c.toNat mn).length = c.toNat := List.length_replicate _ _
    have hrep_sum : (List.replicate c.toNat mn).sum = (c.toNat : Int) * mn := by
      rw [List.sum_replicate, nsmul_eq_mul]
    refine ⟨?_, ?_, ?_⟩
    · have := fisherYates_length g s.units s.k
      omega
    · have := fisherYates_sum g s.units s.k
      have h1 := hspec.2.1
      rw [hrep_sum] at h1
      have hcast : (c.toNat : Int) = c := by omega
      rw [hcast] at h1
      omega
    · exact fisherYates_mem g s.units s.k _ hspec.2.2.1

theorem generateUnitsDistribution_min_total (g : Nat → Nat) (fuel : Nat) (c mn mx : Int)
    (hmn : 0 < mn) (hmnx : mn ≤ mx) (hc : 0 < c) :
    generateUnitsDistribution g fuel (c * mn) c mn mx
      = some (.ok (List.replicate c.toNat mn)) := by
  have hpos : 0 < c * mn := mul_pos hc hmn
  have hle : c * mn ≤ c * mx := mul_le_mul_of_nonneg_left hmnx (le_of_lt hc)
  unfold generateUnitsDistribution
  rw [if_neg (by omega), if_neg (by omega), if_neg (by omega), if_neg (by omega),
    if_neg (by omega)]
  dsimp only
  rw [if_neg (by omega), if_neg (by omega), show c * mn - c * mn = 0 by ring, distLoop_done]
  dsimp only
  rw [fisherYates_replicate]

theorem generateUnitsDistribution_max_total (g : Nat → Nat) (fuel : Nat) (c mn mx : Int)
    (us : List Int) (hc : 0 < c)
    (h : generateUnitsDistribution g fuel (c * mx) c mn mx = some (.ok us)) :
    us = List.replicate c.toNat mx := by
  obtain ⟨hlen, hsum, hmem⟩ := generateUnitsDistribution_ok g fuel (c * mx) c mn mx us h
  have := all_eq_of_sum_eq us mx (fun x hx => (hmem x hx).2) (by rw [hsum, ← hlen])
  rw [this]
  congr 1
  omega

theorem distDiverges_zeroStream : distDiverges zeroStream 4 2 1 5 := by
  intro fuel
  unfold generateUnitsDistribution
  norm_num
  rw [distLoop_zero_none 5 fuel _ _ _ (by norm_num)]

theorem distLoopDiverges_zeroStream : distLoopDiverges 5 zeroStream [1] 2 0 :=
  fun fuel => distLoop_zero_none 5 fuel [1] 2 0 (by norm_num)

theorem distLoop_oneStream_terminates (t c mn mx : Int)
    (hmn : 0 < mn) (hmnx : mn ≤ mx) (hc : 0 < c)
    (hlo : c * mn ≤ t) (hhi : t ≤ c * mx) :
    (∃ s, distLoop mx oneStream (t - c * mn).toNat
        (List.replicate c.toNat mn) (t - c * mn) 0 = some s) ∧
    (∃ us, generateUnitsDistribution oneStream (t - c * mn).toNat t c mn mx
        = some (.ok us)) := by
  have hpos : 0 < c * mn := mul_pos hc hmn
  have hle : c * mn ≤ c * mx := mul_le_mul_of_nonneg_left hmnx (le_of_lt hc)
  have hrephi : ∀ u ∈ List.replicate c.toNat mn, u ≤ mx := by
    intro u hu; rw [List.eq_of_mem_replicate hu]; omega
  have hcap : t - c * mn ≤ ((List.replicate c.toNat mn).map (fun u => mx - u)).sum := by
    rw [sum_map_const_sub, List.length_replicate, List.sum_replicate, nsmul_eq_mul]
    have hcast : (c.toNat : Int) = c := by omega
    rw [hcast]
    omega
  obtain ⟨s, hs⟩ := distLoop_one_some mx (t - c * mn).toNat (List.replicate c.toNat mn)
    (t - c * mn) 0 (by omega) (le_refl _) hrephi hcap
  refine ⟨⟨s, hs⟩, ?_⟩
  unfold generateUnitsDistribution
  rw [if_neg (by omega), if_neg (by omega), if_neg (by omega), if_neg (by omega),
    if_neg (by omega)]
  dsimp only
  rw [if_neg (by omega), if_neg (by omega), hs]
  exact ⟨_, rfl⟩

-- ## Calendar accessors and `new Date` normalization

theorem daysInMonth_ge (y m : Int) : 28 ≤ daysInMonth y m := by
  unfold daysInMonth
  split_ifs <;> norm_num

theorem daysInMonth_le (y m : Int) : daysInMonth y m ≤ 31 := by
  unfold daysInMonth
  split_ifs <;> norm_num

theorem daysFromCivil_day (y m d : Int) :
    daysFromCivil y m d = daysFromCivil y m 1 + d - 1 := by
  simp only [daysFromCivil]
  ring

/-- Length of month `m` of year `y` as a difference of epoch days: the first day
of the following month minus the first day of the month. -/
theorem monthLen (y m : Int) (h1 : 1 ≤ m) (h2 : m ≤ 12) :
    daysFromCivil (if m = 12 then y + 1 else y) (if m = 12 then 1 else m + 1) 1
      = daysFromCivil y m 1 + daysInMonth y m := by
  have hleap : (isLeap y = true) ↔ (y % 4 = 0 ∧ ¬ y % 100 = 0 ∨ y % 400 = 0) := by
    simp [isLeap]
  interval_cases m
  · simp only [daysFromCivil, daysInMonth]; norm_num; omega
  · simp only [daysFromCivil, daysInMonth]
    norm_num
    split_ifs with hl
    · rw [hleap] at hl; omega
    · rw [hleap] at hl; omega
  · simp only [daysFromCivil, daysInMonth]; norm_num; omega
  · simp only [daysFromCivil, daysInMonth]; norm_num; omega
  · simp only [daysFromCivil, daysInMonth]; norm_num; omega
  · simp only [daysFromCivil, daysInMonth]; norm_num; omega
  · simp only [daysFromCivil, daysInMonth]; norm_num; omega
  · simp only [daysFromCivil, daysInMonth]; norm_num; omega
  · simp only [daysFromCivil, daysInMonth]; norm_num; omega
  · simp only [daysFromCivil, daysInMonth]; norm_num; omega
  · simp only [daysFromCivil, daysInMonth]; norm_num; omega
  · simp only [daysFromCivil, daysInMonth]; norm_num; omega

theorem intRange_filterMap_shift (a n : Int) (f : Int → Option YMD) :
    (intRange 1 n).filterMap (fun d => f (a + d - 1))
      = (intRange a (a + n - 1)).filterMap f := by
  unfold intRange
  rw [show n - 1 + 1 = n by ring, show a + n - 1 - a + 1 = n by ring]
  rw [List.filterMap_map, List.filterMap_map]
  refine List.filterMap_congr ?_
  intro i _
  simp only [Function.comp_apply]
  congr 1
  omega

/-- The `nextMonth` date of the single-month branch is the first of the month
after the (normalized) start month. -/
theorem nextMonth_eq (sm sy : Int) :
    (if sm = 12 then newDateDays (sy + 1) 0 1 else newDateDays sy sm 1)
      = daysFromCivil (sy + (sm - 1) / 12) ((sm - 1) % 12 + 1) 1
        + daysInMonth (sy + (sm - 1) / 12) ((sm - 1) % 12 + 1) := by
  rw [← monthLen _ _ (by omega) (by omega)]
  by_cases hsm : sm = 12
  · subst hsm
    rw [if_pos rfl, if_pos (by norm_num), if_pos (by norm_num)]
    unfold newDateDays
    norm_num
  · rw [if_neg hsm]
    unfold newDateDays
    by_cases h12 : (sm - 1) % 12 + 1 = 12
    · rw [if_pos h12, if_pos h12]
      have e1 : sy + sm / 12 = sy + (sm - 1) / 12 + 1 := by omega
      have e2 : sm % 12 + 1 = 1 := by omega
      rw [e1, e2]
      ring
    · rw [if_neg h12, if_neg h12]
      have e1 : sy + sm / 12 = sy + (sm - 1) / 12 := by omega
      have e2 : sm % 12 + 1 = (sm - 1) % 12 + 1 + 1 := by omega
      rw [e1, e2]
      ring

/-- `new Date(endYear, endMonth, 0)` (day 0 of the month after `endMonth`) is
the day before the single-month branch's `nextMonth`, for equal month spans. -/
theorem finalDate_eq (sm sy : Int) :
    newDateDays sy sm 0
      = (if sm = 12 then newDateDays (sy + 1) 0 1 else newDateDays sy sm 1) - 1 := by
  by_cases hsm : sm = 12
  · subst hsm
    rw [if_pos rfl]
    unfold newDateDays
    norm_num
  · rw [if_neg hsm]
    unfold newDateDays
    ring

/-- The single-month and multi-month code paths of month-range expansion agree
whenever the span is a single month: they enumerate the same days in the same
order and apply the same weekday filter. -/
theorem singleMonth_eq_multiMonth (sm sy : Int) (excl : List Int) :
    singleMonthDates sm sy excl = multiMonthDates sm sy sm sy excl := by
  have hdimge := daysInMonth_ge (sy + (sm - 1) / 12) ((sm - 1) % 12 + 1)
  simp only [singleMonthDates, multiMonthDates]
  rw [finalDate_eq, nextMonth_eq]
  simp only [newDateDays]
  have hrt : civilFromDays
      (daysFromCivil (sy + (sm - 1) / 12) ((sm - 1) % 12 + 1) 1
        + daysInMonth (sy + (sm - 1) / 12) ((sm - 1) % 12 + 1) - 1)
      = ⟨sy + (sm - 1) / 12, (sm - 1) % 12 + 1,
          daysInMonth (sy + (sm - 1) / 12) ((sm - 1) % 12 + 1)⟩ := by
    rw [show daysFromCivil (sy + (sm - 1) / 12) ((sm - 1) % 12 + 1) 1
          + daysInMonth (sy + (sm - 1) / 12) ((sm - 1) % 12 + 1) - 1
        = daysFromCivil (sy + (sm - 1) / 12) ((sm - 1) % 12 + 1)
            (daysInMonth (sy + (sm - 1) / 12) ((sm - 1) % 12 + 1)) by
      rw [daysFromCivil_day (sy + (sm - 1) / 12) ((sm - 1) % 12 + 1)
        (daysInMonth (sy + (sm - 1) / 12) ((sm - 1) % 12 + 1))]]
    exact civil_roundtrip _ _ _ (by omega) (by omega) (by omega) (le_refl _)
  rw [hrt]
  dsimp only
  rw [add_sub_cancel_right]
  exact intRange_filterMap_shift _ _ (keepDate excl)

-- ## Worker lemmas about `createBillData`, the date branches and the per-day
-- distribution

theorem billRows_spec (start finish price : Int) (unitsList : List Int)
    (dates : List YMD) (records : List BillData)
    (hh : (some (Except.ok ((List.range (finish - start + 1).toNat).map (fun (i : Nat) =>
        ({ billNo := start + (i : Int), date := dates.getD i default,
           units := unitsList.getD i 0, amount := unitsList.getD i 0 * price } : BillData))))
        : Option (Except String (List BillData))) = some (.ok records))
    (hpos : 0 ≤ finish - start + 1) :
    (records.length : Int) = finish - start + 1 ∧
    ∀ (i : Nat) (hi : i < records.length),
      (records.get ⟨i, hi⟩).billNo = start + i := by
  simp only [Option.some.injEq, Except.ok.injEq] at hh
  subst hh
  constructor
  · simp only [List.length_map, List.length_range]
    omega
  · intro i hi
    simp only [List.length_map, List.length_range] at hi
    simp

theorem createBillData_ok_spec (g : Nat → Nat) (fuel : Nat) (config : BillConfig)
    (records : List BillData) (h : createBillData g fuel config = some (.ok records)) :
    (records.length : Int) = config.invoiceEnd - config.invoiceStart + 1 ∧
    ∀ (i : Nat) (hi : i < records.length),
      (records.get ⟨i, hi⟩).billNo = config.invoiceStart + i := by
  unfold createBillData at h
  simp only [calculateNumBills] at h
  split_ifs at h with h1 h2 h5
  · exact absurd h (by simp)
  · exact absurd h (by simp)
  · rcases hdr : generateDateRange config.startMonth config.startYear config.endMonth
        config.endYear config.excludeWeekdays
        ⟨config.dateMode, config.exactStartDate, config.exactEndDate, config.specificDates⟩
      with e | validDates
    · rw [hdr] at h
      exact absurd h (by simp)
    rw [hdr] at h
    dsimp only at h
    split_ifs at h with h3 h4
    · exact absurd h (by simp)
    · exact absurd h (by simp)
    rcases hgu : generateUnitsDistribution g fuel config.totalUnitsToSell
        (config.invoiceEnd - config.invoiceStart + 1) config.minUnitsPerBill
        config.maxUnitsPerBill with _ | res
    · rw [hgu] at h
      exact absurd h (by simp)
    rcases res with e | unitsList
    · rw [hgu] at h
      exact absurd h (by simp)
    rw [hgu] at h
    dsimp only at h
    rcases hdd : distributeInvoicesAcrossDates (config.invoiceEnd - config.invoiceStart + 1)
        validDates with e | dd
    · rw [hdd] at h
      exact absurd h (by simp)
    · rw [hdd] at h
      exact billRows_spec _ _ _ _ _ _ h (by omega)
  · rcases hdr : generateDateRange config.startMonth config.startYear config.endMonth
        config.endYear config.excludeWeekdays
        ⟨config.dateMode, config.exactStartDate, config.exactEndDate, config.specificDates⟩
      with e | validDates
    · rw [hdr] at h
      exact absurd h (by simp)
    rw [hdr] at h
    dsimp only at h
    split_ifs at h with h3 h4
    · exact absurd h (by simp)
    · exact absurd h (by simp)
    rcases hgu : generateUnitsDistribution g fuel config.totalUnitsToSell
        (config.invoiceEnd - config.invoiceStart + 1) config.minUnitsPerBill
        config.maxUnitsPerBill with _ | res
    · rw [hgu] at h
      exact absurd h (by simp)
    rcases res with e | unitsList
    · rw [hgu] at h
      exact absurd h (by simp)
    rw [hgu] at h
    dsimp only at h
    exact billRows_spec _ _ _ _ _ _ h (by omega)

theorem specificDates_filteredEmpty_spec (cfg : BillConfig) (g : Nat → Nat) (fuel : Nat)
    (hmode : cfg.dateMode = DateMode.specificDates) (hne : cfg.specificDates ≠ [])
    (hfilter : cfg.specificDates.filter (specificDateKept cfg.excludeWeekdays) = []) :
    generateDateRange cfg.startMonth cfg.startYear cfg.endMonth cfg.endYear cfg.excludeWeekdays
        ⟨cfg.dateMode, cfg.exactStartDate, cfg.exactEndDate, cfg.specificDates⟩
      = .error "No valid dates found in the specified dates after excluding weekdays" ∧
    ∃ e, createBillData g fuel cfg = some (.error e) := by
  have hdr : generateDateRange cfg.startMonth cfg.startYear cfg.endMonth cfg.endYear
      cfg.excludeWeekdays
      ⟨cfg.dateMode, cfg.exactStartDate, cfg.exactEndDate, cfg.specificDates⟩
      = .error "No valid dates found in the specified dates after excluding weekdays" := by
    unfold generateDateRange
    rw [if_pos ⟨hmode, hne⟩]
    dsimp only
    rw [if_pos hfilter]
  refine ⟨hdr, ?_⟩
  unfold createBillData
  split_ifs with h1 h2 h5
  · exact ⟨_, rfl⟩
  · exact ⟨_, rfl⟩
  all_goals dsimp only
  all_goals rw [hdr]
  all_goals exact ⟨_, rfl⟩

theorem emptySpecificDates_fallsThrough_spec (sm sy em ey : Int) (excl : List Int)
    (es ee : Option YMD) :
    generateDateRange sm sy em ey excl ⟨DateMode.specificDates, es, ee, []⟩
      = generateDateRange sm sy em ey excl ⟨DateMode.monthRange, es, ee, []⟩ := by
  unfold generateDateRange
  simp

theorem distributeInvoices_spec (n : Int) (ds : List YMD) (hn : 1 ≤ n) (hds : ds ≠ []) :
    ∃ l, distributeInvoicesAcrossDates n ds = .ok l ∧
      l.length = n.toNat ∧
      (∀ (i : Nat) (hi : i < l.length),
        l.get ⟨i, hi⟩
          = ds.getD ((i / (invoicesPerDate n ds.length).toNat) % ds.length) default) ∧
      (∀ i j : Nat, i ≤ j → j < n.toNat →
        (i / (invoicesPerDate n ds.length).toNat) % ds.length
          ≤ (j / (invoicesPerDate n ds.length).toNat) % ds.length) := by
  have hlen : ¬ ds.length = 0 := by simpa [List.length_eq_zero] using hds
  have hL1 : 1 ≤ (ds.length : Int) := by
    have := Nat.one_le_iff_ne_zero.mpr hlen
    exact_mod_cast this
  have hdm := Int.ediv_add_emod (-n) (ds.length : Int)
  have hmod1 : 0 ≤ (-n) % (ds.length : Int) := Int.emod_nonneg _ (by omega)
  have hmod2 : (-n) % (ds.length : Int) < (ds.length : Int) := Int.emod_lt_of_pos _ (by omega)
  have hperd_mul : n ≤ invoicesPerDate n ds.length * (ds.length : Int) := by
    unfold invoicesPerDate
    have hexp : -((-n) / (ds.length : Int)) * (ds.length : Int)
        = -((ds.length : Int) * ((-n) / (ds.length : Int))) := by ring
    rw [hexp]
    omega
  have hperd_pos : 1 ≤ invoicesPerDate n ds.length := by
    unfold invoicesPerDate
    have hq : (-n) / (ds.length : Int) < 0 := Int.ediv_neg' (by omega) (by omega)
    omega
  have hmulN : n.toNat ≤ (invoicesPerDate n ds.length).toNat * ds.length := by
    have hcast : (((invoicesPerDate n ds.length).toNat * ds.length : Nat) : Int)
        = invoicesPerDate n ds.length * (ds.length : Int) := by
      push_cast [Int.toNat_of_nonneg (by omega : (0:Int) ≤ invoicesPerDate n ds.length)]
      ring
    omega
  have hidx : ∀ i : Nat, i < n.toNat →
      i / (invoicesPerDate n ds.length).toNat < ds.length := by
    intro i hi
    rw [Nat.div_lt_iff_lt_mul (by omega)]
    calc i < n.toNat := hi
    _ ≤ (invoicesPerDate n ds.length).toNat * ds.length := hmulN
    _ = ds.length * (invoicesPerDate n ds.length).toNat := Nat.mul_comm _ _
  unfold distributeInvoicesAcrossDates
  rw [if_neg hlen]
  dsimp only
  simp only [List.length_map, List.length_range, Nat.sub_self]
  rw [show List.range' n.toNat 0 = [] from rfl]
  simp only [List.map_nil, List.append_nil]
  refine ⟨_, rfl, by simp, ?_, ?_⟩
  · intro i hi
    simp only [List.length_map, List.length_range] at hi
    simp
  · intro i j hij hj
    rw [Nat.mod_eq_of_lt (hidx i (lt_of_le_of_lt hij hj)), Nat.mod_eq_of_lt (hidx j hj)]
    exact Nat.div_le_div_right hij

-- ## C7 worker

theorem daysInMonth_feb_le (y : Int) : daysInMonth y 2 ≤ 29 := by
  unfold daysInMonth
  norm_num
  split_ifs <;> norm_num

theorem newDateDays_feb31 (y : Int) :
    newDateDays y (2 - 1) 31 = daysFromCivil y 3 (31 - daysInMonth y 2) := by
  unfold newDateDays
  have hml := monthLen y 2 (by norm_num) (by norm_num)
  rw [if_neg (by norm_num), if_neg (by norm_num)] at hml
  norm_num at hml
  rw [daysFromCivil_day y 3 (31 - daysInMonth y 2)]
  norm_num
  omega

-- ## Claim theorems

/-- C1 (amended): for every valid distributor input and every behaviour of the
random source under which the allocation loop terminates, the value returned by
`generateUnitsDistribution(total, count, min, max)` is a sequence of exactly
`count` integers whose sum equals `total`, each lying in `[min, max]`.  (As
stated the claim is refuted by `distributor_zero_draws_never_returns`: under the
all-zero-draw behaviour the function does not return at all.) -/
theorem distributor_returns_spec (g : Nat → Nat) (fuel : Nat) (t c mn mx : Int)
    (us : List Int) (h : generateUnitsDistribution g fuel t c mn mx = some (.ok us)) :
    (us.length : Int) = c ∧ us.sum = t ∧ ∀ u ∈ us, mn ≤ u ∧ u ≤ mx :=
  generateUnitsDistribution_ok g fuel t c mn mx us h

/-- Witness for C1 at `total = 4, count = 2, min = 1, max = 5` with the
all-ones draw stream and fuel 3. -/
theorem distributor_returns_spec_witness :
    (([2, 2] : List Int).length : Int) = 2 ∧ ([2, 2] : List Int).sum = 4 ∧
      ∀ u ∈ ([2, 2] : List Int), 1 ≤ u ∧ u ≤ 5 :=
  distributor_returns_spec oneStream 3 4 2 1 5 [2, 2] (by rfl)

/-- Counterexample to C1 as stated: on the valid input
`(total, count, min, max) = (4, 2, 1, 5)` the distributor never returns under
the random behaviour that always draws 0, since each sweep of the allocation
loop then leaves the state unchanged. -/
theorem distributor_zero_draws_never_returns : distDiverges zeroStream 4 2 1 5 :=
  distDiverges_zeroStream

/-- C2: whenever `createBillData(config)` succeeds, it returns exactly
`invoiceEnd - invoiceStart + 1` bill records, and record `i` (0-indexed) has
invoice number `invoiceStart + i`: invoice numbers are strictly sequential
starting at `invoiceStart`. -/
theorem createBillData_count_and_numbering (g : Nat → Nat) (fuel : Nat)
    (config : BillConfig) (records : List BillData)
    (h : createBillData g fuel config = some (.ok records)) :
    (records.length : Int) = config.invoiceEnd - config.invoiceStart + 1 ∧
    ∀ (i : Nat) (hi : i < records.length),
      (records.get ⟨i, hi⟩).billNo = config.invoiceStart + i :=
  createBillData_ok_spec g fuel config records h

/-- Witness for C2: the May-2025 two-invoice configuration produces records
numbered 1 and 2. -/
theorem createBillData_count_and_numbering_witness :
    (([{ billNo := 1, date := ⟨2025, 5, 1⟩, units := 2, amount := 6 },
       { billNo := 2, date := ⟨2025, 5, 2⟩, units := 2, amount := 6 }] :
        List BillData).length : Int)
      = cfgMayTwo.invoiceEnd - cfgMayTwo.invoiceStart + 1 ∧
    ∀ (i : Nat) (hi : i < ([{ billNo := 1, date := ⟨2025, 5, 1⟩, units := 2, amount := 6 },
       { billNo := 2, date := ⟨2025, 5, 2⟩, units := 2, amount := 6 }] :
        List BillData).length),
      (([{ billNo := 1, date := ⟨2025, 5, 1⟩, units := 2, amount := 6 },
       { billNo := 2, date := ⟨2025, 5, 2⟩, units := 2, amount := 6 }] :
        List BillData).get ⟨i, hi⟩).billNo = cfgMayTwo.invoiceStart + i :=
  createBillData_count_and_numbering oneStream 3 cfgMayTwo _ (by rfl)

/-- C3: with multiple bills per day enabled, for `n ≥ 1` records over a
non-empty date list `ds` with `perDate = ceil(n / len(ds))`, record `i` is
assigned `ds[(i / perDate) % len(ds)]`; all `n` records are assigned a date;
the assigned date indices are non-decreasing in `i`; and in the instance of 10
records over 3 dates, every available date is used by at least one record. -/
theorem distributeInvoices_assignment :
    (∀ (n : Int) (ds : List YMD), 1 ≤ n → ds ≠ [] →
      ∃ l, distributeInvoicesAcrossDates n ds = .ok l ∧
        l.length = n.toNat ∧
        (∀ (i : Nat) (hi : i < l.length),
          l.get ⟨i, hi⟩
            = ds.getD ((i / (invoicesPerDate n ds.length).toNat) % ds.length) default) ∧
        (∀ i j : Nat, i ≤ j → j < n.toNat →
          (i / (invoicesPerDate n ds.length).toNat) % ds.length
            ≤ (j / (invoicesPerDate n ds.length).toNat) % ds.length)) ∧
    (∃ l, distributeInvoicesAcrossDates 10 threeDates = .ok l ∧
      ∀ d ∈ threeDates, d ∈ l) :=
  ⟨fun n ds hn hds => distributeInvoices_spec n ds hn hds, ⟨_, rfl, by decide⟩⟩

/-- Witness for C3 at `n = 2` over a single date. -/
theorem distributeInvoices_assignment_witness :
    ∃ l, distributeInvoicesAcrossDates 2 [(⟨2025, 5, 1⟩ : YMD)] = .ok l ∧
      l.length = (2 : Int).toNat ∧
      (∀ (i : Nat) (hi : i < l.length),
        l.get ⟨i, hi⟩ = [(⟨2025, 5, 1⟩ : YMD)].getD
          ((i / (invoicesPerDate 2 [(⟨2025, 5, 1⟩ : YMD)].length).toNat)
            % [(⟨2025, 5, 1⟩ : YMD)].length) default) ∧
      (∀ i j : Nat, i ≤ j → j < (2 : Int).toNat →
        (i / (invoicesPerDate 2 [(⟨2025, 5, 1⟩ : YMD)].length).toNat)
            % [(⟨2025, 5, 1⟩ : YMD)].length
          ≤ (j / (invoicesPerDate 2 [(⟨2025, 5, 1⟩ : YMD)].length).toNat)
            % [(⟨2025, 5, 1⟩ : YMD)].length) :=
  distributeInvoices_assignment.1 2 [⟨2025, 5, 1⟩] (by norm_num) (by decide)

/-- C4 (amended): in specific-dates mode with a NON-EMPTY explicit date list, if
weekday exclusion and parse failures leave no dates, date expansion throws the
fixed non-empty error message and `createBillData` yields an error (zero
records).  (As stated, over every explicit list, the claim is refuted by
`emptySpecificDates_no_error_cx`: the empty list falls through to month-range
expansion and records are produced.) -/
theorem specificDates_filtered_empty_errors (cfg : BillConfig) (g : Nat → Nat) (fuel : Nat)
    (hmode : cfg.dateMode = DateMode.specificDates) (hne : cfg.specificDates ≠ [])
    (hfilter : cfg.specificDates.filter (specificDateKept cfg.excludeWeekdays) = []) :
    (generateDateRange cfg.startMonth cfg.startYear cfg.endMonth cfg.endYear
        cfg.excludeWeekdays
        ⟨cfg.dateMode, cfg.exactStartDate, cfg.exactEndDate, cfg.specificDates⟩
      = .error "No valid dates found in the specified dates after excluding weekdays") ∧
    "No valid dates found in the specified dates after excluding weekdays" ≠ "" ∧
    ∃ e, createBillData g fuel cfg = some (.error e) := by
  obtain ⟨h1, h2⟩ := specificDates_filteredEmpty_spec cfg g fuel hmode hne hfilter
  exact ⟨h1, by simp, h2⟩

/-- Witness for C4 with the single unparseable date 31-02-2025. -/
theorem specificDates_filtered_empty_errors_witness :
    (generateDateRange cfgUnparseableSpecific.startMonth cfgUnparseableSpecific.startYear
        cfgUnparseableSpecific.endMonth cfgUnparseableSpecific.endYear
        cfgUnparseableSpecific.excludeWeekdays
        ⟨cfgUnparseableSpecific.dateMode, cfgUnparseableSpecific.exactStartDate,
          cfgUnparseableSpecific.exactEndDate, cfgUnparseableSpecific.specificDates⟩
      = .error "No valid dates found in the specified dates after excluding weekdays") ∧
    "No valid dates found in the specified dates after excluding weekdays" ≠ "" ∧
    ∃ e, createBillData oneStream 1 cfgUnparseableSpecific = some (.error e) :=
  specificDates_filtered_empty_errors cfgUnparseableSpecific oneStream 1 (by rfl)
    (by decide) (by decide)

/-- Counterexample to C4 as stated: in specific-dates mode with the EMPTY
explicit list (every date of which is vacuously removed by filtering), date
expansion does not throw: it falls back to month-range expansion and returns
dates, and `createBillData` produces one record rather than zero. -/
theorem emptySpecificDates_no_error_cx :
    (generateDateRange 5 2025 5 2025 [] ⟨DateMode.specificDates, none, none, []⟩).isOk = true ∧
    (createBillData oneStream 2 cfgEmptySpecific).map (Except.map List.length)
      = some (.ok 1) :=
  ⟨rfl, rfl⟩

/-- C5 (amended): `generateUnitsDistribution(count*min, count, min, max)`
returns, under every behaviour and any fuel, the all-`min` sequence (the
allocation loop is never exercised since nothing remains); and whenever
`generateUnitsDistribution(count*max, count, min, max)` returns, every slot is
exactly `max`.  (As stated — the max-total call returning regardless of the
draws — the claim is refuted by `distributor_max_total_zero_draws_diverges`.) -/
theorem distributor_boundary_totals :
    (∀ (g : Nat → Nat) (fuel : Nat) (c mn mx : Int), 0 < mn → mn ≤ mx → 0 < c →
      generateUnitsDistribution g fuel (c * mn) c mn mx
        = some (.ok (List.replicate c.toNat mn))) ∧
    (∀ (g : Nat → Nat) (fuel : Nat) (c mn mx : Int) (us : List Int),
      0 < mn → mn ≤ mx → 0 < c →
      generateUnitsDistribution g fuel (c * mx) c mn mx = some (.ok us) →
      us = List.replicate c.toNat mx) :=
  ⟨fun g fuel c mn mx h1 h2 h3 => generateUnitsDistribution_min_total g fuel c mn mx h1 h2 h3,
   fun g fuel c mn mx us _ _ h3 h => generateUnitsDistribution_max_total g fuel c mn mx us h3 h⟩

/-- Witness for C5: two slots with `min = 1` give `[1, 1]` for any stream with
zero fuel, and the max-total run `(4, 2, 1, 2)` that does return yields all-2s. -/
theorem distributor_boundary_totals_witness :
    generateUnitsDistribution oneStream 0 (2 * 1) 2 1 5
      = some (.ok (List.replicate (2 : Int).toNat 1)) ∧
    ([2, 2] : List Int) = List.replicate (2 : Int).toNat 2 :=
  ⟨distributor_boundary_totals.1 oneStream 0 2 1 5 (by norm_num) (by norm_num) (by norm_num),
   distributor_boundary_totals.2 oneStream 2 2 1 2 [2, 2] (by norm_num) (by norm_num)
     (by norm_num) (by rfl)⟩

/-- Counterexample to C5 as stated: for `count = 1, min = 1, max = 2` the
max-total call `generateUnitsDistribution(2, 1, 1, 2)` does not return under
the all-zero-draw behaviour (one unit remains to allocate forever). -/
theorem distributor_max_total_zero_draws_diverges : distDiverges zeroStream 2 1 1 2 := by
  intro fuel
  unfold generateUnitsDistribution
  norm_num
  rw [distLoop_zero_none 2 fuel _ _ _ (by norm_num)]

/-- C6: for every `(startMonth, startYear)` pair (used as both ends of the
span) and every excluded-weekday set, the dedicated single-month branch of
`generateDateRange` produces exactly the list the day-by-day multi-month
iteration produces: the same ascending enumeration of the month's days under
the same weekday filter. -/
theorem singleMonth_matches_multiMonth (sm sy : Int) (excl : List Int) :
    singleMonthDates sm sy excl = multiMonthDates sm sy sm sy excl :=
  singleMonth_eq_multiMonth sm sy excl

/-- C7: `parseDate` returns a non-null date exactly when re-encoding the parsed
components reproduces the input (day, month, year) triple; in particular
31 February of any year yields `none` (the rolled-over date re-encodes to
March, not to 31-02). -/
theorem parseDate_roundtrip_characterization :
    (∀ d m y : Int, (parseDate ⟨y, m, d⟩).isSome = true ↔
      civilFromDays (newDateDays y (m - 1) d) = ⟨y, m, d⟩) ∧
    (∀ y : Int, parseDate ⟨y, 2, 31⟩ = none) := by
  constructor
  · intro d m y
    unfold parseDate
    dsimp only
    split_ifs with hc
    · simp [hc]
    · simp [hc]
  · intro y
    have hdim2 := daysInMonth_feb_le y
    have hdim2' := daysInMonth_ge y 2
    have hdim3 : daysInMonth y 3 = 31 := by unfold daysInMonth; norm_num
    have hrt := civil_roundtrip y 3 (31 - daysInMonth y 2) (by norm_num) (by norm_num)
      (by omega) (by omega)
    unfold parseDate
    dsimp only
    rw [newDateDays_feb31, hrt, if_neg (by simp)]

/-- C8: the amount-in-words formatter sends 0 to "zero", 100 to the words
"one hundred", and wraps 100 into the fixed currency phrase
"( Rs. One hundred only )" with the first letter capitalized. -/
theorem amount_in_words_scenario :
    numberToWords 0 = "zero" ∧ numberToWords 100 = "one hundred" ∧
    generateAmountInWords 100 = "( Rs. One hundred only )" :=
  ⟨by decide, by decide, by decide⟩

/-- C9: when `dateMode` is specific-dates but the supplied list is empty (or
absent), `generateDateRange` does not raise the specific-dates error: it
behaves exactly as month-range mode over the configured month span. -/
theorem emptySpecificDates_falls_through (sm sy em ey : Int) (excl : List Int)
    (es ee : Option YMD) :
    generateDateRange sm sy em ey excl ⟨DateMode.specificDates, es, ee, []⟩
      = generateDateRange sm sy em ey excl ⟨DateMode.monthRange, es, ee, []⟩ :=
  emptySpecificDates_fallsThrough_spec sm sy em ey excl es ee

/-- C10 (amended): termination of the allocation sweep loop does depend on the
draws: under the all-ones behaviour the loop finishes within
`total - count*min` sweeps for every valid input (and the distributor then
returns), but it is not the case that the loop terminates for every infinite
draw sequence — see `allocation_loop_zero_draws_diverges`. -/
theorem allocation_loop_terminates_under_ones (t c mn mx : Int)
    (hmn : 0 < mn) (hmnx : mn ≤ mx) (hc : 0 < c)
    (hlo : c * mn ≤ t) (hhi : t ≤ c * mx) :
    (∃ s, distLoop mx oneStream (t - c * mn).toNat
        (List.replicate c.toNat mn) (t - c * mn) 0 = some s) ∧
    (∃ us, generateUnitsDistribution oneStream (t - c * mn).toNat t c mn mx
        = some (.ok us)) :=
  distLoop_oneStream_terminates t c mn mx hmn hmnx hc hlo hhi

/-- Witness for C10 at `(total, count, min, max) = (4, 2, 1, 5)`. -/
theorem allocation_loop_terminates_under_ones_witness :
    (∃ s, distLoop 5 oneStream ((4 : Int) - 2 * 1).toNat
        (List.replicate (2 : Int).toNat 1) ((4 : Int) - 2 * 1) 0 = some s) ∧
    (∃ us, generateUnitsDistribution oneStream ((4 : Int) - 2 * 1).toNat 4 2 1 5
        = some (.ok us)) :=
  allocation_loop_terminates_under_ones 4 2 1 5 (by norm_num) (by norm_num) (by norm_num)
    (by norm_num) (by norm_num)

/-- Counterexample to C10 as stated: from the loop state reached on input
`(total, count, min, max) = (3, 1, 1, 5)` (slots `[1]`, remaining 2), the
`while (remaining > 0)` loop never terminates when every draw is 0, whatever
the fuel. -/
theorem allocation_loop_zero_draws_diverges : distLoopDiverges 5 zeroStream [1] 2 0 :=
  distLoopDiverges_zeroStream

end BillGen
